import Mathlib

set_option autoImplicit false

namespace Nuitka

/-!
Shallow embedding of the code-generation context hierarchy
(`nuitka/codegen/Contexts.py`) and of the builtin type constructor
expression nodes (`nuitka/nodes/BuiltinTypeNodes.py`).
-/

/-- A scalar constant value, the element form allowed inside container
constants of the model. -/
inductive Scalar where
  | snone
  | sellipsis
  | sbool (b : Bool)
  | sint (n : Int)
  | sstr (s : String)
  | sbytes (s : String)
deriving DecidableEq

/-- A compile-time constant value, as interned by the constant pool
(containers are modelled up to one level of nesting, which covers every
constant the embedded code interns).  Equality is deep structural equality
of type and value, which models the
`(type(constant), HashableConstant(constant))` comparison discipline:
`HashableConstant` wraps a value so that it is compared by deep equality,
not interpreter identity. -/
inductive Value where
  | vnone
  | vellipsis
  | vbool (b : Bool)
  | vint (n : Int)
  | vstr (s : String)
  | vbytes (s : String)
  | vtuple (elems : List Scalar)
  | vdict (pairs : List (Scalar × Scalar))
deriving DecidableEq

/-- The runtime type tag of a constant, modelling `type(constant)`. -/
inductive TypeTag where
  | noneType
  | ellipsisType
  | boolType
  | intType
  | strType
  | bytesType
  | tupleType
  | dictType
deriving DecidableEq

def Value.typeTag : Value → TypeTag
  | .vnone => .noneType
  | .vellipsis => .ellipsisType
  | .vbool _ => .boolType
  | .vint _ => .intType
  | .vstr _ => .strType
  | .vbytes _ => .bytesType
  | .vtuple _ => .tupleType
  | .vdict _ => .dictType

/-- Identifier handles, one constructor per identifier class used by
`Contexts.py` (`Identifier`, `ConstantIdentifier`, `LocalVariableIdentifier`,
`ClosureVariableIdentifier`, `TempObjectIdentifier` from
`codegen/Identifiers.py`); each constructor records exactly the arguments
the source passes at the construction site. -/
inductive Identifier where
  | plain (code : String) (ref_count : Nat)
  | constantId (name : String) (constant : Value)
  | localVariable (var_name : String) (from_context : Bool)
  | closureVariable (var_name : String) (from_context : String)
  | tempObject (var_name : String) (from_context : String)
deriving DecidableEq

/-- A handle is "direct" when its `from_context` argument is empty/false,
i.e. the variable is reached without indirection through a context object. -/
def Identifier.isDirect : Identifier → Bool
  | .plain _ _ => true
  | .constantId _ _ => true
  | .localVariable _ from_ctx => !from_ctx
  | .closureVariable _ from_ctx => from_ctx == ""
  | .tempObject _ from_ctx => from_ctx == ""

/-- The data a `PythonFunctionContext` queries from its function object. -/
structure FunctionRef where
  is_generator : Bool
  local_variable_names : List String
  closure_variable_names : List String
  has_locals_dict : Bool
deriving DecidableEq

/-- The data a `PythonClassContext` queries from its class definition. -/
structure ClassRef where
  class_variable_names : List String
  closure_variable_names : List String
  has_locals_dict : Bool
deriving DecidableEq

/-- The context-hierarchy node, one constructor per context flavor of
`Contexts.py`.  An exec-inline context records its parent context. -/
inductive Ctx where
  | moduleCtx
  | functionCtx (function : FunctionRef)
  | classCtx (class_def : ClassRef)
  | listContraction
  | generatorExpression
  | setContraction
  | dictContraction
  | execInline (parent : Ctx)
deriving DecidableEq

/-- `getLocalHandle` per flavor.  `none` models a context class that does not
define the method (neither `PythonContextBase` nor `PythonModuleContext`
define `getLocalHandle`).  `PythonClassContext.getLocalHandle` calls
`LocalVariableIdentifier(var_name)` with the default `from_context`, which is
direct (the spec table: class local access is a direct stack slot). -/
def Ctx.getLocalHandle : Ctx → String → Option Identifier
  | .moduleCtx, _ => none
  | .functionCtx f, v => some (.localVariable v f.is_generator)
  | .classCtx _, v => some (.localVariable v false)
  | .listContraction, v => some (.closureVariable v "")
  | .generatorExpression, v => some (.localVariable v true)
  | .setContraction, v => some (.localVariable v false)
  | .dictContraction, v => some (.localVariable v false)
  | .execInline p, v => p.getLocalHandle v

/-- `getClosureHandle` per flavor.  Note that
`PythonExecInlineContext.getClosureHandle` delegates to the *parent's
`getLocalHandle`*, exactly as in the source. -/
def Ctx.getClosureHandle : Ctx → String → Option Identifier
  | .moduleCtx, _ => none
  | .functionCtx f, v =>
      if !f.is_generator then
        some (.closureVariable v "_python_context->")
      else
        some (.closureVariable v "_python_context->common_context->")
  | .classCtx _, v => some (.closureVariable v "")
  | .listContraction, v => some (.closureVariable v "")
  | .generatorExpression, v => some (.closureVariable v "_python_context->")
  | .setContraction, v => some (.closureVariable v "")
  | .dictContraction, v => some (.closureVariable v "")
  | .execInline p, v => p.getLocalHandle v

/-- `getTempHandle` per flavor; `PythonContextBase` provides the default
direct temp handle, overridden only by the function context (generator
split) and the generator-expression context. -/
def Ctx.getTempHandle : Ctx → String → Identifier
  | .functionCtx f, v =>
      if f.is_generator then .tempObject v "_python_context->"
      else .tempObject v ""
  | .generatorExpression, v => .tempObject v "_python_context->"
  | _, v => .tempObject v ""

/-- `canHaveLocalVariables` per flavor; `none` models context classes that do
not define the method.  The exec-inline context delegates to its parent. -/
def Ctx.canHaveLocalVariables : Ctx → Option Bool
  | .moduleCtx => some false
  | .functionCtx _ => some true
  | .execInline p => p.canHaveLocalVariables
  | _ => none

/-- `hasLocalsDict` per flavor; `PythonContextBase` defaults to `False`,
overridden by the function and class contexts (querying their
function/class data) and delegated by the exec-inline context. -/
def Ctx.hasLocalsDict : Ctx → Bool
  | .functionCtx f => f.has_locals_dict
  | .classCtx c => c.has_locals_dict
  | .execInline p => p.hasLocalsDict
  | _ => false

/-- C1: the claim states that for an ordinary (non-generator) function
context all three of `getLocalHandle`, `getClosureHandle`, `getTempHandle`
return direct handles (empty/false `from_context`).  Counterexample: for a
concrete non-generator function context, `getClosureHandle` returns a handle
reached through the enclosing-context pointer, which is not direct. -/
theorem claim_C1_counterexample :
    Option.all Identifier.isDirect
      ((Ctx.functionCtx ⟨false, [], [], false⟩).getClosureHandle "x") = false ∧
    (Ctx.functionCtx ⟨false, [], [], false⟩).getClosureHandle "x" =
      some (.closureVariable "x" "_python_context->") := by
  constructor <;> rfl

/-- C1 (amended): for a generator-function context all three handle
resolvers return handles requiring indirection through the generator state;
for an ordinary function context `getLocalHandle` and `getTempHandle` return
direct handles, while `getClosureHandle` returns a handle through the
enclosing-context pointer (never a direct one). -/
theorem claim_C1_function_context_handles (f : FunctionRef) (v : String) :
    (Ctx.functionCtx f).getLocalHandle v =
      some (.localVariable v f.is_generator) ∧
    (Ctx.functionCtx f).getClosureHandle v =
      some (.closureVariable v
        (if f.is_generator then "_python_context->common_context->"
         else "_python_context->")) ∧
    (Ctx.functionCtx f).getTempHandle v =
      .tempObject v (if f.is_generator then "_python_context->" else "") ∧
    Option.all Identifier.isDirect ((Ctx.functionCtx f).getLocalHandle v) =
      !f.is_generator ∧
    Option.all Identifier.isDirect ((Ctx.functionCtx f).getClosureHandle v) =
      false ∧
    ((Ctx.functionCtx f).getTempHandle v).isDirect = !f.is_generator := by
  obtain ⟨g, locs, clos, ld⟩ := f
  cases g <;>
    simp [Ctx.getLocalHandle, Ctx.getClosureHandle, Ctx.getTempHandle,
      Identifier.isDirect, Option.all]

/-- C2: the claim states that every delegated query of an exec-inline
context returns the same result as the corresponding method on the parent.
Counterexample: under a non-generator function parent, `getClosureHandle`
on the exec-inline context differs from `getClosureHandle` on the parent
(it returns the parent's *local* handle instead). -/
theorem claim_C2_counterexample :
    (Ctx.execInline (Ctx.functionCtx ⟨false, [], [], false⟩)).getClosureHandle "x" ≠
      (Ctx.functionCtx ⟨false, [], [], false⟩).getClosureHandle "x" := by
  decide

/-- C2 (amended): for an exec-inline context nested under parent P,
`getLocalHandle`, `canHaveLocalVariables` and `hasLocalsDict` delegate to
the same-named method of P, while `getClosureHandle` delegates to P's
`getLocalHandle` (not P's `getClosureHandle`). -/
theorem claim_C2_exec_inline_delegation (p : Ctx) (v : String) :
    (Ctx.execInline p).getLocalHandle v = p.getLocalHandle v ∧
    (Ctx.execInline p).getClosureHandle v = p.getLocalHandle v ∧
    (Ctx.execInline p).canHaveLocalVariables = p.canHaveLocalVariables ∧
    (Ctx.execInline p).hasLocalsDict = p.hasLocalsDict := by
  exact ⟨rfl, rfl, rfl, rfl⟩

/-- C3: the claim states that in all three of the list, set and dict
comprehension contexts local access equals closure access.  Counterexample:
in the set-contraction context `getLocalHandle` returns a local-variable
handle, distinct from the closure handle. -/
theorem claim_C3_counterexample :
    Ctx.setContraction.getLocalHandle "x" ≠
      Ctx.setContraction.getClosureHandle "x" := by
  decide

/-- C3 (amended): only the list-contraction context treats local access as
closure access (`getLocalHandle` returns the identical direct closure-style
handle as `getClosureHandle`); the set- and dict-contraction contexts
return a direct local-variable handle from `getLocalHandle`, distinct from
the direct closure handle returned by `getClosureHandle`. -/
theorem claim_C3_contraction_local_handles (v : String) :
    Ctx.listContraction.getLocalHandle v = Ctx.listContraction.getClosureHandle v ∧
    Ctx.listContraction.getClosureHandle v = some (.closureVariable v "") ∧
    Ctx.setContraction.getLocalHandle v = some (.localVariable v false) ∧
    Ctx.setContraction.getClosureHandle v = some (.closureVariable v "") ∧
    Ctx.dictContraction.getLocalHandle v = some (.localVariable v false) ∧
    Ctx.dictContraction.getClosureHandle v = some (.closureVariable v "") := by
  exact ⟨rfl, rfl, rfl, rfl, rfl, rfl⟩

/-!
Builtin type constructor expression nodes (`nuitka/nodes/BuiltinTypeNodes.py`).
An argument expression is modelled by the interface it exposes to these
nodes during optimization.
-/

/-- The queries a builtin constructor node makes on a child expression:
`isExpressionConstantXrangeRef()`, `getIterationLength()`,
`getTruthValue()` and `isCompileTimeConstant()`. -/
structure Expr where
  is_constant_xrange_ref : Bool
  iteration_length : Nat
  truth_value : Option Bool
  is_compile_time_constant : Bool
deriving DecidableEq

/-- Bookkeeping calls a node makes into the external trace collection:
`removeKnowledge(arg)` and `onControlFlowEscape(self)`. -/
inductive TraceEvent where
  | removeKnowledge (arg : Option Expr)
  | onControlFlowEscape
deriving DecidableEq

/-- Outcome of `ExpressionBuiltinContainerBase.computeExpression`:
either `(self, None, None)` with no spec consultation, or delegation to
`self.computeBuiltinSpec(trace_collection, given_values)` with the recorded
argument tuple (the spec object itself is external policy). -/
inductive SpecComputation where
  | unchanged
  | consultSpec (given_values : List Expr)
deriving DecidableEq

/-- `ExpressionBuiltinContainerBase.computeExpression`, shared by the
tuple/list/set/frozenset nodes: a missing child consults the spec with `()`;
a constant xrange reference of iteration length at most 256 is forwarded as
a given value; a longer one returns `(self, None, None)`; any other child is
forwarded as a given value. -/
def ExpressionBuiltinContainerBase.computeExpression
    (value : Option Expr) : SpecComputation :=
  match value with
  | none => .consultSpec []
  | some v =>
      if v.is_constant_xrange_ref then
        if v.iteration_length ≤ 256 then .consultSpec [v]
        else .unchanged
      else .consultSpec [v]

/-- Modelled from the spec: `makeConstantReplacementNode` and
`wrapExpressionWithNodeSideEffects` live in `nodes/NodeMakingHelpers.py`,
which is not part of the sampled source; a replacement is either a constant
node or a side-effect-preserving wrapper that still evaluates the wrapped
old node for its effects. -/
inductive ResultNode where
  | constantNode (value : Bool)
  | withSideEffects (old_node : Expr) (new_node : ResultNode)
deriving DecidableEq

/-- Outcome of `ExpressionBuiltinBool.computeExpression`: a replacement
node together with the change tag and description, or the fall-through to
the generic `ExpressionBuiltinTypeBase.computeExpression` spec path. -/
inductive BoolComputation where
  | replaced (result : ResultNode) (change_tag : String) (change_desc : String)
  | genericSpecPath
deriving DecidableEq

/-- `ExpressionBuiltinBool.computeExpression`: when the argument's truth
value is statically known, return the constant truth value wrapped with the
argument's side effects under change tag `"new_constant"`; otherwise fall
through to the generic builtin-spec path. -/
def ExpressionBuiltinBool.computeExpression
    (value : Option Expr) : BoolComputation :=
  match value with
  | some v =>
      match v.truth_value with
      | some truth =>
          .replaced (.withSideEffects v (.constantNode truth)) "new_constant"
            "Predicted truth value of built-in bool argument"
      | none => .genericSpecPath
  | none => .genericSpecPath

/-- The trailing-`None` elision loop
`while args and args[-1] is None: del args[-1]`. -/
def dropTrailingNones (args : List (Option Expr)) : List (Option Expr) :=
  (args.reverse.dropWhile Option.isNone).reverse

/-- Result of consulting the builtin spec for the unicode/str/bytes family. -/
inductive UnicodeSpecResult where
  | unchanged
  | foldedConstant (given_values : List (Option Expr))
deriving DecidableEq

/-- Modelled from the spec: `computeBuiltinSpec` (from
`nodes/ExpressionBases.py`) and the str/unicode/bytes builtin spec objects
(from `optimizations/BuiltinOptimization.py`) are not part of the sampled
source.  Codec behavior is treated as opaque: with an encoding (or errors)
argument present the spec never produces a constant replacement; the plain
single-argument form may fold when the given values are compile-time
constants. -/
def unicodeComputeBuiltinSpec
    (given_values : List (Option Expr)) : UnicodeSpecResult :=
  if 2 ≤ given_values.length then .unchanged
  else if given_values.all (fun a => (a.map Expr.is_compile_time_constant).getD false) then
    .foldedConstant given_values
  else .unchanged

/-- The three named children of `ExpressionBuiltinUnicodeBase`
(`value`, `encoding`, `errors`); an omitted child is `none`. -/
structure ExpressionBuiltinUnicodeBase where
  value : Option Expr
  encoding : Option Expr
  errors : Option Expr
deriving DecidableEq

/-- What a run of `ExpressionBuiltinUnicodeBase.computeExpression` produces:
the trace-collection events in order, the elided argument tuple handed to
`computeBuiltinSpec`, and the spec's verdict. -/
structure UnicodeComputation where
  events : List TraceEvent
  given_values : List (Option Expr)
  result : UnicodeSpecResult
deriving DecidableEq

/-- `ExpressionBuiltinUnicodeBase.computeExpression`: gather
`[value, encoding, errors]`, drop trailing `None` children, call
`removeKnowledge` on each remaining argument, record one
`onControlFlowEscape`, then consult the builtin spec with the elided
tuple. -/
def ExpressionBuiltinUnicodeBase.computeExpression
    (n : ExpressionBuiltinUnicodeBase) : UnicodeComputation :=
  let args := dropTrailingNones [n.value, n.encoding, n.errors]
  { events := args.map TraceEvent.removeKnowledge ++ [TraceEvent.onControlFlowEscape],
    given_values := args,
    result := unicodeComputeBuiltinSpec args }

/-- The `given_values` tuple `ExpressionBuiltinComplex.computeExpression`
hands to `computeBuiltinSpec`: exactly `(real, imag)`, with no elision. -/
def ExpressionBuiltinComplex.computeExpressionGivenValues
    (real imag : Option Expr) : List (Option Expr) :=
  [real, imag]

/-- Whether a list starts with an absent (`none`) child. -/
def headIsNone (l : List (Option Expr)) : Bool :=
  match l.head? with
  | some none => true
  | _ => false

/-- Whether an argument tuple ends in an absent (`none`) child. -/
def endsInNoneChild (l : List (Option Expr)) : Bool :=
  headIsNone l.reverse

theorem headIsNone_dropWhile (m : List (Option Expr)) :
    headIsNone (m.dropWhile Option.isNone) = false := by
  induction m with
  | nil => rfl
  | cons a t ih =>
      cases a with
      | none => simpa [List.dropWhile] using ih
      | some e => simp [List.dropWhile, headIsNone]

theorem endsInNoneChild_dropTrailingNones (l : List (Option Expr)) :
    endsInNoneChild (dropTrailingNones l) = false := by
  unfold endsInNoneChild dropTrailingNones
  rw [List.reverse_reverse]
  exact headIsNone_dropWhile l.reverse

/-- C4: for every unicode/str/bytes-flavored constructor node,
`computeExpression` first invalidates each argument surviving trailing-none
elision (`removeKnowledge`), records exactly one `onControlFlowEscape`
event, and only then consults the builtin spec on the elided tuple; with an
encoding argument present, the value argument is always invalidated and the
result is never a constant replacement. -/
theorem claim_C4_unicode_escape_before_spec (n : ExpressionBuiltinUnicodeBase) :
    n.computeExpression.given_values =
      dropTrailingNones [n.value, n.encoding, n.errors] ∧
    n.computeExpression.events =
      n.computeExpression.given_values.map TraceEvent.removeKnowledge ++
        [TraceEvent.onControlFlowEscape] ∧
    n.computeExpression.events.count TraceEvent.onControlFlowEscape = 1 ∧
    n.computeExpression.result =
      unicodeComputeBuiltinSpec n.computeExpression.given_values ∧
    (n.encoding.isSome = true →
      TraceEvent.removeKnowledge n.value ∈ n.computeExpression.events ∧
      n.computeExpression.result = .unchanged) := by
  obtain ⟨v, enc, err⟩ := n
  refine ⟨rfl, rfl, ?_, rfl, ?_⟩
  · have hev : (ExpressionBuiltinUnicodeBase.computeExpression ⟨v, enc, err⟩).events =
        (dropTrailingNones [v, enc, err]).map TraceEvent.removeKnowledge ++
          [TraceEvent.onControlFlowEscape] := rfl
    have h0 : ∀ m : List (Option Expr),
        (m.map TraceEvent.removeKnowledge).count TraceEvent.onControlFlowEscape = 0 := by
      intro m
      induction m with
      | nil => rfl
      | cons a t ih => simpa [List.count_cons] using ih
    rw [hev, List.count_append, h0]
    rfl
  · intro henc
    obtain ⟨e, rfl⟩ := Option.isSome_iff_exists.mp henc
    cases err with
    | none =>
        refine ⟨?_, ?_⟩ <;>
          simp [ExpressionBuiltinUnicodeBase.computeExpression,
            dropTrailingNones, List.dropWhile, unicodeComputeBuiltinSpec]
    | some er =>
        refine ⟨?_, ?_⟩ <;>
          simp [ExpressionBuiltinUnicodeBase.computeExpression,
            dropTrailingNones, List.dropWhile, unicodeComputeBuiltinSpec]

/-- C4 witness: a str node with a compile-time-constant value and an
encoding argument still removes knowledge of the value and yields no
constant replacement. -/
theorem claim_C4_witness :
    TraceEvent.removeKnowledge (some ⟨false, 0, some true, true⟩) ∈
      (ExpressionBuiltinUnicodeBase.computeExpression
        ⟨some ⟨false, 0, some true, true⟩, some ⟨false, 0, none, true⟩, none⟩).events ∧
    (ExpressionBuiltinUnicodeBase.computeExpression
        ⟨some ⟨false, 0, some true, true⟩, some ⟨false, 0, none, true⟩, none⟩).result =
      .unchanged :=
  (claim_C4_unicode_escape_before_spec
    ⟨some ⟨false, 0, some true, true⟩, some ⟨false, 0, none, true⟩, none⟩).2.2.2.2 rfl

/-- C5: when the argument's truth value is statically known, the bool node
replaces itself (before any spec consultation) with the constant truth
value wrapped so the original argument is still evaluated for side effects,
under change tag `"new_constant"`; when the truth value is unknown it falls
through to the generic builtin-spec path. -/
theorem claim_C5_bool_truth_fold (v : Expr) :
    (∀ truth : Bool, v.truth_value = some truth →
      ExpressionBuiltinBool.computeExpression (some v) =
        .replaced (.withSideEffects v (.constantNode truth)) "new_constant"
          "Predicted truth value of built-in bool argument") ∧
    (v.truth_value = none →
      ExpressionBuiltinBool.computeExpression (some v) = .genericSpecPath) := by
  constructor
  · intro truth h
    simp [ExpressionBuiltinBool.computeExpression, h]
  · intro h
    simp [ExpressionBuiltinBool.computeExpression, h]

/-- C5 witness: a statically-false argument folds to the wrapped constant
with tag `"new_constant"`; a statically-unknown one takes the generic
path. -/
theorem claim_C5_witness :
    ExpressionBuiltinBool.computeExpression (some ⟨false, 0, some false, true⟩) =
      .replaced (.withSideEffects ⟨false, 0, some false, true⟩ (.constantNode false))
        "new_constant" "Predicted truth value of built-in bool argument" ∧
    ExpressionBuiltinBool.computeExpression (some ⟨false, 0, none, false⟩) =
      .genericSpecPath :=
  ⟨(claim_C5_bool_truth_fold ⟨false, 0, some false, true⟩).1 false rfl,
   (claim_C5_bool_truth_fold ⟨false, 0, none, false⟩).2 rfl⟩

/-- C6: a unary container constructor over a constant range reference
returns itself unchanged (change tag `None`, no spec call) when the
iteration length exceeds 256, and forwards the reference to the builtin
spec as a given value when the length is at most 256. -/
theorem claim_C6_container_range_threshold (v : Expr)
    (h : v.is_constant_xrange_ref = true) :
    (256 < v.iteration_length →
      ExpressionBuiltinContainerBase.computeExpression (some v) = .unchanged) ∧
    (v.iteration_length ≤ 256 →
      ExpressionBuiltinContainerBase.computeExpression (some v) =
        .consultSpec [v]) := by
  constructor
  · intro hlen
    simp [ExpressionBuiltinContainerBase.computeExpression, h,
      Nat.not_le_of_lt hlen]
  · intro hlen
    simp [ExpressionBuiltinContainerBase.computeExpression, h, hlen]

/-- C6 witness: a length-10000 constant range reference is left unchanged;
a length-10 one is forwarded to the spec. -/
theorem claim_C6_witness :
    ExpressionBuiltinContainerBase.computeExpression
      (some ⟨true, 10000, none, true⟩) = .unchanged ∧
    ExpressionBuiltinContainerBase.computeExpression
      (some ⟨true, 10, none, true⟩) =
      .consultSpec [⟨true, 10, none, true⟩] :=
  ⟨(claim_C6_container_range_threshold ⟨true, 10000, none, true⟩ rfl).1 (by decide),
   (claim_C6_container_range_threshold ⟨true, 10, none, true⟩ rfl).2 (by decide)⟩

/-- C7: the claim states that every builtin-constructor node's argument
tuple never ends in a `none` child.  Counterexample: the complex
constructor with an absent `imag` child passes a tuple ending in `none` to
the builtin spec. -/
theorem claim_C7_counterexample :
    endsInNoneChild (ExpressionBuiltinComplex.computeExpressionGivenValues
      (some ⟨false, 0, none, true⟩) none) = true := by
  rfl

/-- C7 (amended): trailing-none elision holds for the unicode/str/bytes
constructor family, whose spec tuple never ends in a `none` child; the
two-argument complex constructor performs no elision and forwards
`(real, imag)` verbatim, so its tuple ends in a `none` child exactly when
`imag` is absent. -/
theorem claim_C7_trailing_none_elision :
    (∀ n : ExpressionBuiltinUnicodeBase,
      endsInNoneChild n.computeExpression.given_values = false) ∧
    (∀ real imag : Option Expr,
      ExpressionBuiltinComplex.computeExpressionGivenValues real imag =
        [real, imag]) := by
  constructor
  · intro n
    exact endsInNoneChild_dropTrailingNones [n.value, n.encoding, n.errors]
  · intro real imag
    rfl

/-!
The constant pool (`PythonGlobalContext`) and the module context's code
registration tables (`PythonModuleContext`).
-/

/-- Association-list lookup, modelling membership and subscription of a
Python `dict` (insertion-ordered, no duplicate keys arise because
insertion happens only on absent keys). -/
def lookupAssoc {α β : Type} [DecidableEq α] : List (α × β) → α → Option β
  | [], _ => none
  | (k, v) :: rest, key => if k = key then some v else lookupAssoc rest key

/-- The constant-pool key `(type(constant), HashableConstant(constant))`. -/
def keyOf (c : Value) : TypeTag × Value := (c.typeTag, c)

def Scalar.namify : Scalar → String
  | .snone => "none"
  | .sellipsis => "ellipsis"
  | .sbool true => "true"
  | .sbool false => "false"
  | .sint n => "int_" ++ toString n
  | .sstr s => "str_" ++ s
  | .sbytes s => "bytes_" ++ s

/-- Modelled from the spec: `Namify.namifyConstant` (from
`codegen/Namify.py`, not part of the sampled source) derives a stable
printable name deterministically from the constant value. -/
def namifyConstant : Value → String
  | .vnone => "none"
  | .vellipsis => "ellipsis"
  | .vbool true => "true"
  | .vbool false => "false"
  | .vint n => "int_" ++ toString n
  | .vstr s => "str_" ++ s
  | .vbytes s => "bytes_" ++ s
  | .vtuple elems => "tuple_" ++ String.intercalate "_" (elems.map Scalar.namify)
  | .vdict pairs =>
      "dict_" ++ String.intercalate "_"
        (pairs.map (fun p => p.1.namify ++ "_" ++ p.2.namify))

/-- The constant pool: the `self.constants` dict mapping pool keys to
handle name strings, in insertion order. -/
structure PythonGlobalContext where
  constants : List ((TypeTag × Value) × String)
deriving DecidableEq

/-- The values `getConstantHandle` short-circuits on with fixed singleton
handles (`constant is None / True / False / Ellipsis`). -/
def isSingletonConstant : Value → Bool
  | .vnone => true
  | .vbool _ => true
  | .vellipsis => true
  | _ => false

/-- The pooled branch of `getConstantHandle`: look the key up; if absent,
insert `"_python_" + namifyConstant(constant)`; return a
`ConstantIdentifier` of the (possibly pre-existing) stored name. -/
def PythonGlobalContext.internPooled (p : PythonGlobalContext) (c : Value) :
    PythonGlobalContext × Identifier :=
  match lookupAssoc p.constants (keyOf c) with
  | some name => (p, .constantId name c)
  | none =>
      let name := "_python_" ++ namifyConstant c
      (⟨p.constants ++ [(keyOf c, name)]⟩, .constantId name c)

/-- `PythonGlobalContext.getConstantHandle`: fixed zero-indirection handles
for the four singletons, the pooled lookup-or-insert for everything else. -/
def PythonGlobalContext.getConstantHandle (p : PythonGlobalContext) :
    Value → PythonGlobalContext × Identifier
  | .vnone => (p, .plain "Py_None" 0)
  | .vbool true => (p, .plain "Py_True" 0)
  | .vbool false => (p, .plain "Py_False" 0)
  | .vellipsis => (p, .plain "Py_Ellipsis" 0)
  | .vint n => p.internPooled (.vint n)
  | .vstr s => p.internPooled (.vstr s)
  | .vbytes s => p.internPooled (.vbytes s)
  | .vtuple es => p.internPooled (.vtuple es)
  | .vdict ps => p.internPooled (.vdict ps)

/-- The textual name carried by a handle. -/
def Identifier.handleName : Identifier → String
  | .plain code _ => code
  | .constantId name _ => name
  | .localVariable n _ => n
  | .closureVariable n _ => n
  | .tempObject n _ => n

/-- The handle name an intern call on pool `p` returns for value `c`. -/
def internName (p : PythonGlobalContext) (c : Value) : String :=
  ((p.getConstantHandle c).2).handleName

/-- Intern a sequence of values left to right, keeping the pool. -/
def internAll (p : PythonGlobalContext) (cs : List Value) : PythonGlobalContext :=
  cs.foldl (fun q c => (q.getConstantHandle c).1) p

/-- Code-unit comparison of char lists, the order `sorted` uses on the
handle-name strings. -/
def charListLe : List Char → List Char → Bool
  | [], _ => true
  | _ :: _, [] => false
  | a :: as, b :: bs =>
      if a.toNat < b.toNat then true
      else if b.toNat < a.toNat then false
      else charListLe as bs

def strLe (a b : String) : Bool := charListLe a.data b.data

def insertByHandle (e : (TypeTag × Value) × String) :
    List ((TypeTag × Value) × String) → List ((TypeTag × Value) × String)
  | [] => [e]
  | f :: rest => if strLe e.2 f.2 then e :: f :: rest else f :: insertByHandle e rest

def sortByHandle : List ((TypeTag × Value) × String) →
    List ((TypeTag × Value) × String)
  | [] => []
  | e :: rest => insertByHandle e (sortByHandle rest)

/-- `PythonGlobalContext.getConstants`:
`sorted(self.constants.items(), key = lambda x: x[1])`. -/
def PythonGlobalContext.getConstants (p : PythonGlobalContext) :
    List ((TypeTag × Value) × String) :=
  sortByHandle p.constants

/-- The constants `PythonGlobalContext.__init__` pre-registers, in source
order: basic values, Python mechanics names, the patched module name,
builtin names used in helper code, print argument names, and the
read/strip method names. -/
def alwaysNeededConstants : List Value :=
  [ .vtuple [], .vdict [], .vstr "", .vbool true, .vbool false, .vint 0,
    .vbytes "",
    .vstr "__module__", .vstr "__class__", .vstr "__dict__", .vstr "__doc__",
    .vstr "__file__", .vstr "__enter__", .vstr "__exit__",
    .vstr "__builtins__", .vstr "__cached__",
    .vstr "inspect",
    .vstr "compile", .vstr "range", .vstr "open", .vstr "print",
    .vstr "__import__",
    .vstr "end", .vstr "file",
    .vstr "read", .vstr "strip" ]

/-- The pool as `PythonGlobalContext.__init__` leaves it: the empty dict
run through `getConstantHandle` for each always-needed constant. -/
def PythonGlobalContext.initial : PythonGlobalContext :=
  internAll ⟨[]⟩ alwaysNeededConstants

theorem lookupAssoc_append_left {α β : Type} [DecidableEq α]
    (l l2 : List (α × β)) (k : α) (n : β) (h : lookupAssoc l k = some n) :
    lookupAssoc (l ++ l2) k = some n := by
  induction l with
  | nil => simp [lookupAssoc] at h
  | cons e rest ih =>
      rw [List.cons_append]
      unfold lookupAssoc at h ⊢
      by_cases he : e.1 = k
      · simpa [he] using h
      · rw [if_neg he] at h ⊢
        exact ih h

theorem lookupAssoc_cons {α β : Type} [DecidableEq α]
    (e : α × β) (rest : List (α × β)) (k : α) :
    lookupAssoc (e :: rest) k =
      if e.1 = k then some e.2 else lookupAssoc rest k := by
  obtain ⟨a, b⟩ := e
  rfl

theorem lookupAssoc_append_right {α β : Type} [DecidableEq α]
    (l l2 : List (α × β)) (k : α) (h : lookupAssoc l k = none) :
    lookupAssoc (l ++ l2) k = lookupAssoc l2 k := by
  induction l with
  | nil => rfl
  | cons e rest ih =>
      rw [List.cons_append, lookupAssoc_cons] at *
      by_cases he : e.1 = k
      · simp [he] at h
      · rw [if_neg he] at h ⊢
        exact ih h

theorem lookupAssoc_append_self {α β : Type} [DecidableEq α]
    (l : List (α × β)) (k : α) (v : β) (h : lookupAssoc l k = none) :
    lookupAssoc (l ++ [(k, v)]) k = some v := by
  rw [lookupAssoc_append_right l [(k, v)] k h]
  simp [lookupAssoc]

theorem internPooled_constants (p : PythonGlobalContext) (c : Value) :
    ∃ tail, ((p.internPooled c).1).constants = p.constants ++ tail := by
  cases h : lookupAssoc p.constants (keyOf c) with
  | none =>
      exact ⟨[(keyOf c, "_python_" ++ namifyConstant c)],
        by simp [PythonGlobalContext.internPooled, h]⟩
  | some name =>
      exact ⟨[], by simp [PythonGlobalContext.internPooled, h]⟩

theorem getConstantHandle_constants (p : PythonGlobalContext) (c : Value) :
    ∃ tail, ((p.getConstantHandle c).1).constants = p.constants ++ tail := by
  cases c with
  | vnone => exact ⟨[], by simp [PythonGlobalContext.getConstantHandle]⟩
  | vellipsis => exact ⟨[], by simp [PythonGlobalContext.getConstantHandle]⟩
  | vbool b =>
      cases b <;> exact ⟨[], by simp [PythonGlobalContext.getConstantHandle]⟩
  | vint n => exact internPooled_constants p (.vint n)
  | vstr s => exact internPooled_constants p (.vstr s)
  | vbytes s => exact internPooled_constants p (.vbytes s)
  | vtuple es => exact internPooled_constants p (.vtuple es)
  | vdict ps => exact internPooled_constants p (.vdict ps)

theorem getConstantHandle_preserves (p : PythonGlobalContext) (c : Value)
    (k : TypeTag × Value) (n : String)
    (h : lookupAssoc p.constants k = some n) :
    lookupAssoc ((p.getConstantHandle c).1).constants k = some n := by
  obtain ⟨tail, ht⟩ := getConstantHandle_constants p c
  rw [ht]
  exact lookupAssoc_append_left p.constants tail k n h

theorem internAll_preserves (cs : List Value) (p : PythonGlobalContext)
    (k : TypeTag × Value) (n : String)
    (h : lookupAssoc p.constants k = some n) :
    lookupAssoc (internAll p cs).constants k = some n := by
  induction cs generalizing p with
  | nil => exact h
  | cons c rest ih => exact ih _ (getConstantHandle_preserves p c k n h)

theorem getConstantHandle_pooled (p : PythonGlobalContext) (c : Value)
    (hs : isSingletonConstant c = false) :
    p.getConstantHandle c = p.internPooled c := by
  cases c with
  | vnone => simp [isSingletonConstant] at hs
  | vellipsis => simp [isSingletonConstant] at hs
  | vbool b => simp [isSingletonConstant] at hs
  | vint n => rfl
  | vstr s => rfl
  | vbytes s => rfl
  | vtuple es => rfl
  | vdict ps => rfl

theorem internName_of_lookup (p : PythonGlobalContext) (c : Value) (n : String)
    (hs : isSingletonConstant c = false)
    (h : lookupAssoc p.constants (keyOf c) = some n) :
    internName p c = n := by
  unfold internName
  rw [getConstantHandle_pooled p c hs]
  simp [PythonGlobalContext.internPooled, h, Identifier.handleName]

theorem lookup_after_intern (p : PythonGlobalContext) (c : Value)
    (hs : isSingletonConstant c = false) :
    lookupAssoc ((p.getConstantHandle c).1).constants (keyOf c) =
      some (internName p c) := by
  unfold internName
  rw [getConstantHandle_pooled p c hs]
  cases h : lookupAssoc p.constants (keyOf c) with
  | none =>
      simp only [PythonGlobalContext.internPooled, h, Identifier.handleName]
      exact lookupAssoc_append_self p.constants (keyOf c) _ h
  | some name =>
      simp [PythonGlobalContext.internPooled, h, Identifier.handleName]

theorem singleton_internName (c : Value) (hs : isSingletonConstant c = true)
    (q p : PythonGlobalContext) : internName q c = internName p c := by
  cases c with
  | vnone => rfl
  | vellipsis => rfl
  | vbool b => cases b <;> rfl
  | vint n => simp [isSingletonConstant] at hs
  | vstr s => simp [isSingletonConstant] at hs
  | vbytes s => simp [isSingletonConstant] at hs
  | vtuple es => simp [isSingletonConstant] at hs
  | vdict ps => simp [isSingletonConstant] at hs

/-- C8: interning two values with equal `(type, normalized-value)` keys
returns the identical handle name, regardless of any interleaved intern
calls, and an intern call never changes the binding of a key already in
the pool. -/
theorem claim_C8_pool_idempotent (p : PythonGlobalContext) (v1 v2 : Value)
    (others : List Value) (h : keyOf v1 = keyOf v2) :
    internName (internAll ((p.getConstantHandle v1).1) others) v2 =
      internName p v1 ∧
    (∀ k n, lookupAssoc p.constants k = some n →
      lookupAssoc ((p.getConstantHandle v1).1).constants k = some n) := by
  have hv : v1 = v2 := congrArg Prod.snd h
  subst hv
  refine ⟨?_, fun k n hk => getConstantHandle_preserves p v1 k n hk⟩
  cases hs : isSingletonConstant v1 with
  | true => exact singleton_internName v1 hs _ p
  | false =>
      have h1 := lookup_after_intern p v1 hs
      have h2 := internAll_preserves others _ _ _ h1
      exact internName_of_lookup _ _ _ hs h2

/-- C8 witness: interning `"a"` into an empty pool, then interleaving other
interns, then interning `"a"` again returns the same handle name; an
intern call leaves an existing binding untouched. -/
theorem claim_C8_witness :
    internName
        (internAll (((⟨[]⟩ : PythonGlobalContext).getConstantHandle (.vstr "a")).1)
          [.vint 5, .vstr "b"])
        (.vstr "a") =
      internName ⟨[]⟩ (.vstr "a") ∧
    lookupAssoc
        (((⟨[((TypeTag.strType, Value.vstr "c"), "nc")]⟩ :
            PythonGlobalContext).getConstantHandle (.vstr "a")).1).constants
        (TypeTag.strType, Value.vstr "c") = some "nc" :=
  ⟨(claim_C8_pool_idempotent ⟨[]⟩ (.vstr "a") (.vstr "a")
      [.vint 5, .vstr "b"] rfl).1,
   (claim_C8_pool_idempotent ⟨[((TypeTag.strType, Value.vstr "c"), "nc")]⟩
      (.vstr "a") (.vstr "a") [] rfl).2
      (TypeTag.strType, Value.vstr "c") "nc" (by decide)⟩

/-- C9: the claim states that every value of the always-needed set,
including the booleans `True` and `False`, has an entry in the pool's table
right after construction.  Counterexample: `True` takes the fixed-singleton
path of `getConstantHandle` and never enters the table, so `getConstants`
has no entry for it. -/
theorem claim_C9_counterexample :
    lookupAssoc PythonGlobalContext.initial.getConstants
      (keyOf (.vbool true)) = none := by
  decide

/-- Whether the freshly constructed pool's table has an entry for a value. -/
def hasPoolEntry (v : Value) : Bool :=
  (lookupAssoc PythonGlobalContext.initial.getConstants (keyOf v)).isSome

/-- C9 (amended): immediately after pool construction every always-needed
value except the booleans — the empty tuple, empty dict, empty string,
empty bytes, zero, and the fixed name vocabulary — has an entry in the
table returned by `getConstants`; the booleans are served by the fixed
singleton handles `Py_True`/`Py_False` and never enter the table. -/
theorem claim_C9_always_needed_registered :
    (alwaysNeededConstants.filter
      (fun v => !isSingletonConstant v)).all hasPoolEntry = true ∧
    lookupAssoc PythonGlobalContext.initial.getConstants
      (keyOf (.vbool true)) = none ∧
    lookupAssoc PythonGlobalContext.initial.getConstants
      (keyOf (.vbool false)) = none ∧
    (PythonGlobalContext.initial.getConstantHandle (.vbool true)).2 =
      .plain "Py_True" 0 ∧
    (PythonGlobalContext.initial.getConstantHandle (.vbool false)).2 =
      .plain "Py_False" 0 := by
  decide

/-- The module context's code registration tables: `function_codes`,
`contraction_codes`, `class_codes`. -/
structure PythonModuleContext where
  function_codes : List (String × (String × String))
  contraction_codes : List (String × (String × String))
  class_codes : List (String × (String × String))
deriving DecidableEq

/-- Outcome of a registration call: the updated module context, or the
fatal `assert code_name not in ...` violation (the table is untouched,
since the assertion fires before the assignment). -/
inductive AddCodesResult where
  | ok (ctx : PythonModuleContext)
  | assertionFailed
deriving DecidableEq

/-- `PythonModuleContext.addFunctionCodes`. -/
def PythonModuleContext.addFunctionCodes (m : PythonModuleContext)
    (code_name function_decl function_code : String) : AddCodesResult :=
  if (lookupAssoc m.function_codes code_name).isSome then .assertionFailed
  else .ok { m with
    function_codes :=
      m.function_codes ++ [(code_name, (function_decl, function_code))] }

/-- `PythonModuleContext.addContractionCodes`. -/
def PythonModuleContext.addContractionCodes (m : PythonModuleContext)
    (code_name contraction_decl contraction_code : String) : AddCodesResult :=
  if (lookupAssoc m.contraction_codes code_name).isSome then .assertionFailed
  else .ok { m with
    contraction_codes :=
      m.contraction_codes ++ [(code_name, (contraction_decl, contraction_code))] }

/-- `PythonModuleContext.addClassCodes`. -/
def PythonModuleContext.addClassCodes (m : PythonModuleContext)
    (code_name class_decl class_code : String) : AddCodesResult :=
  if (lookupAssoc m.class_codes code_name).isSome then .assertionFailed
  else .ok { m with
    class_codes := m.class_codes ++ [(code_name, (class_decl, class_code))] }

def PythonModuleContext.getFunctionsCodes (m : PythonModuleContext) :
    List (String × (String × String)) := m.function_codes

def PythonModuleContext.getContractionsCodes (m : PythonModuleContext) :
    List (String × (String × String)) := m.contraction_codes

def PythonModuleContext.getClassesCodes (m : PythonModuleContext) :
    List (String × (String × String)) := m.class_codes

/-- C10: for each registration kind, registering under a fresh code name
succeeds and makes the pair retrievable through the matching getter, while
registering under an already-registered code name of the same kind fails
with the assertion violation (and produces no updated table, so nothing is
overwritten). -/
theorem claim_C10_code_registration (m : PythonModuleContext)
    (code_name decl body : String) :
    ((lookupAssoc m.function_codes code_name).isSome = false →
      m.addFunctionCodes code_name decl body =
        .ok { m with function_codes :=
          m.function_codes ++ [(code_name, (decl, body))] } ∧
      lookupAssoc
        (PythonModuleContext.getFunctionsCodes
          { m with function_codes :=
            m.function_codes ++ [(code_name, (decl, body))] })
        code_name = some (decl, body)) ∧
    ((lookupAssoc m.function_codes code_name).isSome = true →
      m.addFunctionCodes code_name decl body = .assertionFailed) ∧
    ((lookupAssoc m.contraction_codes code_name).isSome = false →
      m.addContractionCodes code_name decl body =
        .ok { m with contraction_codes :=
          m.contraction_codes ++ [(code_name, (decl, body))] } ∧
      lookupAssoc
        (PythonModuleContext.getContractionsCodes
          { m with contraction_codes :=
            m.contraction_codes ++ [(code_name, (decl, body))] })
        code_name = some (decl, body)) ∧
    ((lookupAssoc m.contraction_codes code_name).isSome = true →
      m.addContractionCodes code_name decl body = .assertionFailed) ∧
    ((lookupAssoc m.class_codes code_name).isSome = false →
      m.addClassCodes code_name decl body =
        .ok { m with class_codes :=
          m.class_codes ++ [(code_name, (decl, body))] } ∧
      lookupAssoc
        (PythonModuleContext.getClassesCodes
          { m with class_codes :=
            m.class_codes ++ [(code_name, (decl, body))] })
        code_name = some (decl, body)) ∧
    ((lookupAssoc m.class_codes code_name).isSome = true →
      m.addClassCodes code_name decl body = .assertionFailed) := by
  refine ⟨fun h => ⟨?_, ?_⟩, fun h => ?_, fun h => ⟨?_, ?_⟩, fun h => ?_,
    fun h => ⟨?_, ?_⟩, fun h => ?_⟩
  · simp [PythonModuleContext.addFunctionCodes, h]
  · exact lookupAssoc_append_self m.function_codes code_name (decl, body)
      (Option.not_isSome_iff_eq_none.mp (by simp [h]))
  · simp [PythonModuleContext.addFunctionCodes, h]
  · simp [PythonModuleContext.addContractionCodes, h]
  · exact lookupAssoc_append_self m.contraction_codes code_name (decl, body)
      (Option.not_isSome_iff_eq_none.mp (by simp [h]))
  · simp [PythonModuleContext.addContractionCodes, h]
  · simp [PythonModuleContext.addClassCodes, h]
  · exact lookupAssoc_append_self m.class_codes code_name (decl, body)
      (Option.not_isSome_iff_eq_none.mp (by simp [h]))
  · simp [PythonModuleContext.addClassCodes, h]

/-- C10 witness: on a module context with one function code registered,
registering a fresh name succeeds and is retrievable, and re-registering
the existing name fails the assertion; likewise for the contraction and
class tables. -/
theorem claim_C10_witness :
    ((⟨[("f", ("fd", "fc"))], [("k", ("kd", "kc"))], [("c", ("cd", "cc"))]⟩ :
        PythonModuleContext).addFunctionCodes "g" "gd" "gc" =
      .ok ⟨[("f", ("fd", "fc")), ("g", ("gd", "gc"))],
        [("k", ("kd", "kc"))], [("c", ("cd", "cc"))]⟩ ∧
      lookupAssoc
        (PythonModuleContext.getFunctionsCodes
          ⟨[("f", ("fd", "fc")), ("g", ("gd", "gc"))],
            [("k", ("kd", "kc"))], [("c", ("cd", "cc"))]⟩) "g" =
        some ("gd", "gc")) ∧
    ((⟨[("f", ("fd", "fc"))], [("k", ("kd", "kc"))], [("c", ("cd", "cc"))]⟩ :
        PythonModuleContext).addFunctionCodes "f" "fd2" "fc2" =
      .assertionFailed) ∧
    ((⟨[("f", ("fd", "fc"))], [("k", ("kd", "kc"))], [("c", ("cd", "cc"))]⟩ :
        PythonModuleContext).addContractionCodes "k" "kd2" "kc2" =
      .assertionFailed) ∧
    ((⟨[("f", ("fd", "fc"))], [("k", ("kd", "kc"))], [("c", ("cd", "cc"))]⟩ :
        PythonModuleContext).addClassCodes "c" "cd2" "cc2" =
      .assertionFailed) :=
  ⟨(claim_C10_code_registration
      ⟨[("f", ("fd", "fc"))], [("k", ("kd", "kc"))], [("c", ("cd", "cc"))]⟩
      "g" "gd" "gc").1 (by decide),
   (claim_C10_code_registration
      ⟨[("f", ("fd", "fc"))], [("k", ("kd", "kc"))], [("c", ("cd", "cc"))]⟩
      "f" "fd2" "fc2").2.1 (by decide),
   (claim_C10_code_registration
      ⟨[("f", ("fd", "fc"))], [("k", ("kd", "kc"))], [("c", ("cd", "cc"))]⟩
      "k" "kd2" "kc2").2.2.2.1 (by decide),
   (claim_C10_code_registration
      ⟨[("f", ("fd", "fc"))], [("k", ("kd", "kc"))], [("c", ("cd", "cc"))]⟩
      "c" "cd2" "cc2").2.2.2.2.2 (by decide)⟩

end Nuitka
